import Mathlib

/-!
Shallow embedding of the `financial_data_api` aggregation pipeline
(validator, cache manager, rate limiters, Yahoo Finance client,
SEC EDGAR client, aggregator) and proofs about its behaviour.

Wall-clock time (Python `time.time()` / `datetime.now()`) is modelled
as a rational number of seconds.  Python exceptions are modelled with
`Except PyErr`; Python `None` and falsy values with `Option`.
-/

/-- Python exception kinds that appear in the modelled code paths. -/
inductive PyErr
  | valueError
  | attributeError
  | upstreamError
deriving DecidableEq, Repr

/-- Python values that may be passed as a `ticker` argument. -/
inductive PyValue
  | str (s : String)
  | int (n : Int)
  | pyNone
deriving DecidableEq, Repr

/-- Uppercasing of a string, modelling Python `str.upper` for the
ASCII tickers this program handles. -/
def upperStr (s : String) : String := ⟨s.data.map Char.toUpper⟩

/-- Python `x.upper()`: succeeds on strings, raises `AttributeError`
on any non-string value. -/
def pyUpper : PyValue → Except PyErr String
  | PyValue.str s => Except.ok (upperStr s)
  | _ => Except.error PyErr.attributeError

/-- Lexicographic comparison of character lists by code point,
modelling Python string comparison (used to sort filing-date strings). -/
def charListLe : List Char → List Char → Bool
  | [], _ => true
  | _ :: _, [] => false
  | a :: as, b :: bs =>
    if a.toNat < b.toNat then true
    else if b.toNat < a.toNat then false
    else charListLe as bs

/-- String comparison by code points, modelling Python `<=` on strings. -/
def strLe (a b : String) : Bool := charListLe a.data b.data

/-- Substring containment, modelling Python `pattern in key`. -/
def strContains (hay pat : String) : Bool :=
  hay.data.tails.any (fun t => pat.data.isPrefixOf t)

/-- Lookup in an association list, modelling a Python dict access. -/
def alookup {β : Type} (l : List (String × β)) (k : String) : Option β :=
  (l.find? (fun p => p.1 == k)).map Prod.snd

namespace DataValidator

/-- Model of `DataValidator.validate_ticker`: raises `ValueError` on a
falsy (`None`, empty-string, non-string) ticker, else uppercases it. -/
def validate_ticker : PyValue → Except PyErr String
  | PyValue.str s => if s = "" then Except.error PyErr.valueError else Except.ok (upperStr s)
  | _ => Except.error PyErr.valueError

end DataValidator

/-- A cache entry as stored by `CacheManager.set`:
`{'timestamp': time.time(), 'value': value}`. -/
structure CacheEntry (V : Type) where
  timestamp : ℚ
  value : V
deriving DecidableEq, Repr

/-- Model of `config.CACHE_EXPIRY` (seconds). -/
def CACHE_EXPIRY : List (String × ℚ) :=
  [("STOCK_PRICE", 3600), ("HISTORICAL_DATA", 24 * 60 * 60), ("SEC_FILING", 7 * 24 * 60 * 60)]

/-- Model of `CACHE_EXPIRY.get(cache_type, 3600)`. -/
def expiryFor (cache_type : String) : ℚ := (alookup CACHE_EXPIRY cache_type).getD 3600

/-- Model of `CacheManager`: `cache = None` is the disabled state entered
when the backing diskcache store fails at construction; otherwise the
backing store is an association list of keys to entries. -/
structure CacheManager (V : Type) where
  cache : Option (List (String × CacheEntry V))
deriving DecidableEq, Repr

namespace CacheManager

/-- Model of `CacheManager.get`: miss when disabled or absent, otherwise
lazily invalidate by comparing `now - timestamp` with the category TTL
at read time.  The entry is never removed. -/
def get {V : Type} (cm : CacheManager V) (key : String) (cache_type : String) (now : ℚ) :
    Option V :=
  match cm.cache with
  | none => none
  | some store =>
    match alookup store key with
    | none => none
    | some data =>
      let expiry_time := expiryFor cache_type
      if expiry_time < now - data.timestamp then none
      else some data.value

/-- Replacement of a key's binding in the backing store, modelling
`diskcache.Cache.set` overwriting a key. -/
def storeSet {V : Type} (store : List (String × CacheEntry V)) (key : String)
    (e : CacheEntry V) : List (String × CacheEntry V) :=
  (key, e) :: store.filter (fun kv => !(kv.1 == key))

/-- Model of `CacheManager.set`: reports `False` when disabled, else
stores `{'timestamp': now, 'value': value}` (the category is accepted
but not consulted, exactly as in the source). -/
def set {V : Type} (cm : CacheManager V) (key : String) (value : V)
    (_cache_type : String) (now : ℚ) : Bool × CacheManager V :=
  match cm.cache with
  | none => (false, cm)
  | some store => (true, ⟨some (storeSet store key ⟨now, value⟩)⟩)

/-- Truthiness of the `pattern` argument, modelling Python `if pattern:`
(`None` and the empty string are falsy). -/
def patternTruthy : Option String → Bool
  | some p => !(p == "")
  | none => false

/-- Model of `CacheManager.clear`: `False` when disabled; with a truthy
pattern, deletes every key containing the pattern as a substring; else
wipes the whole store.  Returns `True` in both non-disabled branches. -/
def clear {V : Type} (cm : CacheManager V) (pattern : Option String) :
    Bool × CacheManager V :=
  match cm.cache with
  | none => (false, cm)
  | some store =>
    if patternTruthy pattern then
      let p := pattern.getD ""
      (true, ⟨some (store.filter (fun kv => !(strContains kv.1 p)))⟩)
    else
      (true, ⟨some []⟩)

end CacheManager

/-- Modelled from the spec and claim text: the number of entries that a
`clear` call removes (the claim says `clear` returns this count). -/
def clearRemovedCount {V : Type} (cm : CacheManager V) (pattern : Option String) : Nat :=
  match cm.cache with
  | none => 0
  | some store =>
    if CacheManager.patternTruthy pattern then
      (store.filter (fun kv => strContains kv.1 (pattern.getD ""))).length
    else
      store.length

/-- Mutable rate-limiter state of `YahooFinanceAPI`
(`request_count`, `reset_time`, `last_request_time`). -/
structure YahooRateState where
  request_count : Nat
  reset_time : ℚ
  last_request_time : ℚ
deriving DecidableEq, Repr

/-- Model of `YahooFinanceAPI._check_rate_limit`: resets the counter at
window rollover, enforces a 1-second spacing sleep, applies the
exponential backoff sleep `min(30, 2 ** (request_count // 5))` once the
counter exceeds 5, then increments the counter and stamps
`last_request_time` with the time after the sleeps.  Returns the
backoff delay (seconds) together with the new state. -/
def check_rate_limit (st : YahooRateState) (now : ℚ) : Nat × YahooRateState :=
  let reset := st.reset_time ≤ now
  let request_count := if reset then 0 else st.request_count
  let reset_time := if reset then now + 3600 else st.reset_time
  let elapsed := now - st.last_request_time
  let spacing := if elapsed < 1 then 1 - elapsed else 0
  let delay := if 5 < request_count then min 30 (2 ^ (request_count / 5)) else 0
  (delay,
   { request_count := request_count + 1,
     reset_time := reset_time,
     last_request_time := now + spacing + (delay : ℚ) })

/-- Model of `config.SEC_EDGAR_API_LIMIT`. -/
def SEC_EDGAR_API_LIMIT : ℚ := 5

/-- Model of `SECEdgarAPI._respect_rate_limit`: sleeps
`max(0, 1/limit - elapsed)` plus a fixed 0.1-second margin and returns
the new `last_request_time` (the time after the sleeps). -/
def respect_rate_limit (last_request_time : ℚ) (now : ℚ) : ℚ :=
  let elapsed := now - last_request_time
  let wait_time := max 0 (1 / SEC_EDGAR_API_LIMIT - elapsed)
  now + wait_time + 1 / 10

/-- The raw `stock.info` payload fields consumed by `get_ticker_info`
(absent dict keys are `none`; numeric fields modelled as rationals). -/
structure UpstreamInfo where
  shortName : Option String
  sector : Option String
  industry : Option String
  marketCap : Option ℚ
  trailingPE : Option ℚ
  dividendYield : Option ℚ
  beta : Option ℚ
  fiftyTwoWeekHigh : Option ℚ
  fiftyTwoWeekLow : Option ℚ
  averageVolume : Option ℚ
deriving DecidableEq, Repr

/-- The `relevant_info` dict built by `get_ticker_info`.  As a Python
dict it always has twelve keys, hence is always truthy. -/
structure RelevantInfo where
  symbol : String
  name : String
  sector : String
  industry : String
  market_cap : ℚ
  pe_ratio : ℚ
  dividend_yield : ℚ
  beta : ℚ
  fifty_two_week_high : ℚ
  fifty_two_week_low : ℚ
  avg_volume : ℚ
  last_updated : ℚ
deriving DecidableEq, Repr

/-- State of a `YahooFinanceAPI` instance: its cache of ticker-info
records and its rate-limiter counters. -/
structure YahooAPIState where
  cache : CacheManager RelevantInfo
  limiter : YahooRateState
deriving DecidableEq, Repr

/-- Model of `YahooFinanceAPI.get_ticker_info`.  The upstream
`yf.Ticker(t).info` response is an oracle: `Except.error` models a
raised exception, `Except.ok none` an empty or non-dict payload.
Returns the result, the new API state, and whether an upstream request
was attempted.  The whole body sits inside `try/except` returning
`None`, so a validation failure is swallowed, not surfaced. -/
def get_ticker_info (st : YahooAPIState) (ticker : PyValue) (now : ℚ)
    (upstream : Except PyErr (Option UpstreamInfo)) :
    Option RelevantInfo × YahooAPIState × Bool :=
  match DataValidator.validate_ticker ticker with
  | Except.error _ => (none, st, false)
  | Except.ok t =>
    let cache_key := "ticker_info_" ++ t
    match st.cache.get cache_key "STOCK_PRICE" now with
    | some cached => (some cached, st, false)
    | none =>
      let limiter := (check_rate_limit st.limiter now).2
      match upstream with
      | Except.error _ => (none, ⟨st.cache, limiter⟩, true)
      | Except.ok none => (none, ⟨st.cache, limiter⟩, true)
      | Except.ok (some info) =>
        let relevant_info : RelevantInfo :=
          { symbol := t,
            name := info.shortName.getD "",
            sector := info.sector.getD "",
            industry := info.industry.getD "",
            market_cap := info.marketCap.getD 0,
            pe_ratio := info.trailingPE.getD 0,
            dividend_yield := info.dividendYield.getD 0,
            beta := info.beta.getD 0,
            fifty_two_week_high := info.fiftyTwoWeekHigh.getD 0,
            fifty_two_week_low := info.fiftyTwoWeekLow.getD 0,
            avg_volume := info.averageVolume.getD 0,
            last_updated := now }
        let cache2 := (st.cache.set cache_key relevant_info "STOCK_PRICE" now).2
        (some relevant_info, ⟨cache2, limiter⟩, true)

/-- One expiration's chain dict as consumed by
`calculate_implied_volatility`: each side is absent (`none`) or a list
of contracts, each contributing an `impliedVolatility` value or `none`
when the contract is not a dict or lacks the field. -/
structure ExpChain where
  calls : Option (List (Option ℚ))
  puts : Option (List (Option ℚ))
deriving DecidableEq, Repr

/-- The positive implied volatilities collected from one side of a
chain, in order (`if 'calls' in chain and chain['calls']:` followed by
the filtering loop). -/
def side_ivs (side : Option (List (Option ℚ))) : List ℚ :=
  match side with
  | none => []
  | some contracts =>
    contracts.foldl
      (fun acc c =>
        match c with
        | some iv => if 0 < iv then acc ++ [iv] else acc
        | none => acc) []

/-- The per-expiration record stored in `iv_data['expirations']`. -/
structure ExpIV where
  calls_iv : ℚ
  puts_iv : ℚ
  average_iv : ℚ
deriving DecidableEq, Repr

/-- Per-expiration IV averaging of `calculate_implied_volatility`:
each side averages to 0 when it has no positive IVs, and the total is
`(avg_calls + avg_puts) / 2` when either side has IVs, else 0. -/
def calc_exp_iv (chain : ExpChain) : ExpIV :=
  let calls_iv := side_ivs chain.calls
  let puts_iv := side_ivs chain.puts
  let avg_calls_iv := if calls_iv ≠ [] then calls_iv.sum / calls_iv.length else 0
  let avg_puts_iv := if puts_iv ≠ [] then puts_iv.sum / puts_iv.length else 0
  let avg_total_iv :=
    if calls_iv ≠ [] ∨ puts_iv ≠ [] then (avg_calls_iv + avg_puts_iv) / 2 else 0
  ⟨avg_calls_iv, avg_puts_iv, avg_total_iv⟩

/-- An options chain payload: expiration dates mapped to chains. -/
def OptionsData : Type := List (String × ExpChain)

/-- The aggregation loop of `calculate_implied_volatility`: builds the
per-expiration records and collects into `all_ivs` each per-expiration
average that is positive, then the overall `average_iv` is the mean of
`all_ivs` (0 when empty). -/
def calculate_iv_data (options_data : OptionsData) : List (String × ExpIV) × ℚ :=
  let folded :=
    options_data.foldl
      (fun (acc : List (String × ExpIV) × List ℚ) p =>
        let e := calc_exp_iv p.2
        (acc.1 ++ [(p.1, e)],
         if 0 < e.average_iv then acc.2 ++ [e.average_iv] else acc.2))
      ([], [])
  let all_ivs := folded.2
  (folded.1, if all_ivs ≠ [] then all_ivs.sum / all_ivs.length else 0)

/-- Modelled from the claim text: a per-expiration average in which a
side with no positive IVs is excluded from the average rather than
counted as zero. -/
def claim_exp_average_iv (chain : ExpChain) : ℚ :=
  let calls_iv := side_ivs chain.calls
  let puts_iv := side_ivs chain.puts
  let sides :=
    (if calls_iv ≠ [] then [calls_iv.sum / calls_iv.length] else []) ++
    (if puts_iv ≠ [] then [puts_iv.sum / puts_iv.length] else [])
  if sides ≠ [] then sides.sum / sides.length else 0

/-- One record of the SEC company-tickers directory
(`{'cik_str': ..., 'ticker': ...}`). -/
structure CompanyDirEntry where
  cik_str : Option Nat
  ticker : Option String
deriving DecidableEq, Repr

/-- Left-padding with zeros to width 10, modelling `str.zfill(10)`. -/
def zfill10 (s : String) : String :=
  ⟨List.replicate (10 - s.length) '0' ++ s.data⟩

/-- The directory scan of `get_cik_from_ticker`: the first company
whose upper-cased ticker matches yields its CIK formatted to 10
digits. -/
def find_cik (companies : List CompanyDirEntry) (t : String) : Option String :=
  match companies.find? (fun company => upperStr (company.ticker.getD "") == t) with
  | some company => some (zfill10 (Nat.repr (company.cik_str.getD 0)))
  | none => none

/-- State of a `SECEdgarAPI` instance: its cache of CIK strings and its
rate-limiter timestamp. -/
structure EdgarAPIState where
  cache : CacheManager String
  last_request_time : ℚ
deriving DecidableEq, Repr

/-- Model of `SECEdgarAPI.get_cik_from_ticker`.  The upstream
`company_tickers.json` response is an oracle (`Except.error` models a
raised exception or non-200 status collapsed to the same `None`
outcome via an inner handler; here an error yields `None`).  Returns
the result, the new state, and whether an upstream request was
attempted.  A cached CIK is returned only when truthy (non-empty),
modelling `if cached_data:`. -/
def get_cik_from_ticker (st : EdgarAPIState) (ticker : PyValue) (now : ℚ)
    (upstream : Except PyErr (List CompanyDirEntry)) :
    Option String × EdgarAPIState × Bool :=
  match DataValidator.validate_ticker ticker with
  | Except.error _ => (none, st, false)
  | Except.ok t =>
    let cache_key := "cik_" ++ t
    let hit :=
      match st.cache.get cache_key "SEC_FILING" now with
      | some cached => if cached = "" then none else some cached
      | none => none
    match hit with
    | some cached => (some cached, st, false)
    | none =>
      let last := respect_rate_limit st.last_request_time now
      match upstream with
      | Except.error _ => (none, ⟨st.cache, last⟩, true)
      | Except.ok companies =>
        match find_cik companies t with
        | some cik =>
          let cache2 := (st.cache.set cache_key cik "SEC_FILING" now).2
          (some cik, ⟨cache2, last⟩, true)
        | none => (none, ⟨st.cache, last⟩, true)

/-- One entry of a unit array in the company-facts payload
(`{val, end, filed, form}`, each possibly absent). -/
structure FactEntry where
  val : Option Int
  end_date : Option String
  filed : Option String
  form : Option String
deriving DecidableEq, Repr

/-- One taxonomy tag's data: unit name mapped to its entry array. -/
structure TagData where
  units : List (String × List FactEntry)
deriving DecidableEq, Repr

/-- The company-facts payload: the optional `facts` key holds taxonomy
names (such as `us-gaap`) mapped to tag dictionaries. -/
structure CompanyFacts where
  facts : Option (List (String × List (String × TagData)))
deriving DecidableEq, Repr

/-- One point of a financial series as appended by
`extract_key_financials` (`value`, `end_date`, `filing_date`). -/
structure SeriesPoint where
  value : Int
  end_date : String
  filing_date : String
deriving DecidableEq, Repr

/-- Conversion of a raw entry into a series point, with the `.get`
defaults of the source (`val` 0, `end` and `filed` empty). -/
def entryToPoint (e : FactEntry) : SeriesPoint :=
  ⟨e.val.getD 0, e.end_date.getD "", e.filed.getD ""⟩

/-- The nested unit/entry loop for one tag: every entry whose `form` is
`10-K` is appended, across every unit, in order. -/
def collect_form_10k (td : TagData) : List SeriesPoint :=
  (td.units.map (fun u => (u.2.filter (fun e => e.form == some "10-K")).map entryToPoint)).flatten

/-- The synonymous revenue tags probed by `extract_key_financials`. -/
def revenue_keys : List String := ["Revenue", "Revenues", "SalesRevenueNet"]

/-- The `financials` result dict of `extract_key_financials`. -/
structure KeyFinancials where
  ticker : String
  revenue : List SeriesPoint
  net_income : List SeriesPoint
  eps : List SeriesPoint
deriving DecidableEq, Repr

/-- `sorted(entries, key=filing_date, reverse=True)`: a stable
descending sort on the filing-date string. -/
def sort_filing_date_desc (l : List SeriesPoint) : List SeriesPoint :=
  l.mergeSort (fun a b => strLe b.filing_date a.filing_date)

/-- The `if financials[key]:` guard before sorting each series. -/
def maybe_sort (l : List SeriesPoint) : List SeriesPoint :=
  if l ≠ [] then sort_filing_date_desc l else l

/-- Model of the pure transformation in
`SECEdgarAPI.extract_key_financials`, applied to the company-facts
payload fetched for the ticker (`none` when there is no payload or it
lacks the `facts` key).  The revenue loop iterates over all three
revenue tags with no break, appending from every tag that is present. -/
def extract_key_financials (ticker : String) (facts : Option CompanyFacts) :
    Option KeyFinancials :=
  match facts with
  | none => none
  | some f =>
    match f.facts with
    | none => none
    | some taxonomies =>
      let fin : KeyFinancials :=
        match alookup taxonomies "us-gaap" with
        | none => ⟨ticker, [], [], []⟩
        | some us_gaap =>
          let revenue :=
            (revenue_keys.map (fun rev_key =>
              match alookup us_gaap rev_key with
              | none => []
              | some td => collect_form_10k td)).flatten
          let net_income :=
            match alookup us_gaap "NetIncomeLoss" with
            | none => []
            | some td => collect_form_10k td
          let eps :=
            match alookup us_gaap "EarningsPerShareDiluted" with
            | none => []
            | some td => collect_form_10k td
          ⟨ticker, revenue, net_income, eps⟩
      some { fin with
        revenue := maybe_sort fin.revenue,
        net_income := maybe_sort fin.net_income,
        eps := maybe_sort fin.eps }

/-- All raw entries of one tag across its units, in order. -/
def tagEntries (us_gaap : List (String × TagData)) (k : String) : List FactEntry :=
  match alookup us_gaap k with
  | none => []
  | some td => (td.units.map Prod.snd).flatten

/-- The merged 10-K revenue points over all three synonymous revenue
tags: concatenate every present tag's entries, keep the `10-K` forms,
convert to points.  Used to characterize the (pre-sort) revenue series. -/
def allRevenuePoints (us_gaap : List (String × TagData)) : List SeriesPoint :=
  (((revenue_keys.map (tagEntries us_gaap)).flatten).filter
    (fun e => e.form == some "10-K")).map entryToPoint

/-- Modelled from the claim text: a revenue series built from only the
first revenue tag present in the taxonomy (first match wins, no merge). -/
def claim_revenue_first_match (us_gaap : List (String × TagData)) : List SeriesPoint :=
  match revenue_keys.find? (fun k => (alookup us_gaap k).isSome) with
  | none => []
  | some k =>
    match alookup us_gaap k with
    | none => []
    | some td => collect_form_10k td

/-- A filing-metadata record as returned by the SEC EDGAR client. -/
structure Filing where
  form : String
  accessionNumber : String
  filingDate : String
  primaryDocument : String
  ticker : String
  cik : String
deriving DecidableEq, Repr

/-- The per-expiration IV payload `iv_data` of
`calculate_implied_volatility`, as consumed by the aggregator. -/
structure IVData where
  symbol : String
  timestamp : ℚ
  expirations : List (String × ExpIV)
  average_iv : ℚ
deriving DecidableEq, Repr

/-- The `sec_data` sub-dict of the composite record, with its defaults
`recent_10k = None`, `recent_8k = []`, `key_financials = None`. -/
structure SecData where
  recent_10k : Option Filing
  recent_8k : List Filing
  key_financials : Option KeyFinancials
deriving DecidableEq, Repr

/-- The `comprehensive_data` record built by
`FinancialDataAPI.get_stock_data`, generic in the historical-data
payload `H` (a dataframe dict the aggregator only passes through).
`basic_info = none` models the default empty dict; `historical_data`
and `options_data` are absent (`none`) until their steps succeed. -/
structure ComprehensiveData (H : Type) where
  basic_info : Option RelevantInfo
  implied_volatility : Option IVData
  historical_data : Option H
  options_data : Option OptionsData
  sec_data : SecData
  last_updated : ℚ

/-- The defaults with which `get_stock_data` initializes its record. -/
def default_comprehensive (H : Type) (now : ℚ) : ComprehensiveData H :=
  { basic_info := none,
    implied_volatility := none,
    historical_data := none,
    options_data := none,
    sec_data := ⟨none, [], none⟩,
    last_updated := now }

/-- Outcomes of the aggregator's sub-calls and store writes for one
`get_stock_data` invocation.  Each is an oracle: `Except.error` models
a raised exception reaching the aggregator's `try` block, `Except.ok`
the returned value (with `none` / `[]` for falsy results). -/
structure AggOracles (H : Type) where
  stock_info : Except PyErr (Option RelevantInfo)
  historical : Except PyErr (Option H)
  options : Except PyErr (Option OptionsData)
  save_options : Except PyErr Bool
  iv : Except PyErr (Option IVData)
  recent_10k : Except PyErr (Option Filing)
  save_10k : Except PyErr Bool
  recent_8k : Except PyErr (List Filing)
  save_8k : Except PyErr Bool
  key_financials : Except PyErr (Option KeyFinancials)
  save_stock : Except PyErr Bool

/-- The `try` body of `get_stock_data`: runs the sub-calls in order,
merging each truthy result into the accumulating record; the first
raised exception stops the sequence and the partial record built so
far is returned (the `except` handler), exactly as in the source. -/
def get_stock_data_body {H : Type} (o : AggOracles H) (d0 : ComprehensiveData H) :
    ComprehensiveData H :=
  let d := d0
  match o.stock_info with
  | Except.error _ => d
  | Except.ok r =>
  let d := match r with
    | some stock_info => { d with basic_info := some stock_info }
    | none => d
  match o.historical with
  | Except.error _ => d
  | Except.ok r =>
  let d := match r with
    | some historical_data => { d with historical_data := some historical_data }
    | none => d
  match o.options with
  | Except.error _ => d
  | Except.ok r =>
  let d := match r with
    | some options_data => { d with options_data := some options_data }
    | none => d
  match (if d.options_data.isSome then o.save_options else Except.ok true) with
  | Except.error _ => d
  | Except.ok _ =>
  match o.iv with
  | Except.error _ => d
  | Except.ok r =>
  let d := match r with
    | some iv_data => { d with implied_volatility := some iv_data }
    | none => d
  match o.recent_10k with
  | Except.error _ => d
  | Except.ok r =>
  let d := match r with
    | some f => { d with sec_data := { d.sec_data with recent_10k := some f } }
    | none => d
  match (if d.sec_data.recent_10k.isSome then o.save_10k else Except.ok true) with
  | Except.error _ => d
  | Except.ok _ =>
  match o.recent_8k with
  | Except.error _ => d
  | Except.ok r =>
  let d := if r ≠ [] then { d with sec_data := { d.sec_data with recent_8k := r } } else d
  match (if d.sec_data.recent_8k ≠ [] then o.save_8k else Except.ok true) with
  | Except.error _ => d
  | Except.ok _ =>
  match o.key_financials with
  | Except.error _ => d
  | Except.ok r =>
  let d := match r with
    | some fin => { d with sec_data := { d.sec_data with key_financials := some fin } }
    | none => d
  match o.save_stock with
  | Except.error _ => d
  | Except.ok _ => d

/-- Model of `FinancialDataAPI.get_stock_data`: `ticker.upper()` runs
before the `try` block, so a non-string ticker raises; for a string
ticker the guarded body always produces a record. -/
def get_stock_data {H : Type} (ticker : PyValue) (now : ℚ) (o : AggOracles H) :
    Except PyErr (ComprehensiveData H) :=
  match pyUpper ticker with
  | Except.error e => Except.error e
  | Except.ok _t =>
    Except.ok (get_stock_data_body o (default_comprehensive H now))

/-- Model of `FinancialDataAPI.clear_cache`: calls the cache's `clear`,
ignores its boolean result, and returns `True`; `CacheManager.clear`
itself never raises (its body is wrapped in a catch-all handler), so
the `except` branch returning `False` is unreachable. -/
def clear_cache {V : Type} (cache : CacheManager V) (pattern : Option String) :
    Bool × CacheManager V :=
  let r := cache.clear pattern
  (true, r.2)

lemma expiryFor_pos (cat : String) : 0 < expiryFor cat := by
  unfold expiryFor alookup
  cases h : List.find? (fun p => p.1 == cat) CACHE_EXPIRY with
  | none => norm_num
  | some p =>
    have hp : p ∈ CACHE_EXPIRY := List.mem_of_find?_eq_some h
    simp only [CACHE_EXPIRY, List.mem_cons, List.not_mem_nil, or_false] at hp
    rcases hp with h1 | h1 | h1 <;> subst h1 <;> norm_num

lemma alookup_storeSet_self {V : Type} (store : List (String × CacheEntry V))
    (key : String) (e : CacheEntry V) :
    alookup (CacheManager.storeSet store key e) key = some e := by
  simp [alookup, CacheManager.storeSet, List.find?_cons]

/-- C9: `FinancialDataAPI.clear_cache` returns `True` whenever the
underlying `CacheManager.clear` does not raise — which in this code is
always, including the disabled-cache state in which `clear` itself
reports failure by returning `False`; the boolean result of
`clear_cache` therefore does not reflect whether anything was cleared. -/
theorem clear_cache_true_despite_failure :
    (∀ (V : Type) (cache : CacheManager V) (pattern : Option String),
      (clear_cache cache pattern).1 = true) ∧
    (∀ (V : Type) (pattern : Option String),
      (CacheManager.clear (⟨none⟩ : CacheManager V) pattern).1 = false ∧
      (clear_cache (⟨none⟩ : CacheManager V) pattern).1 = true) :=
  ⟨fun _ _ _ => rfl, fun _ _ => ⟨rfl, rfl⟩⟩

/-- A concrete enabled cache with two entries, used as a counterexample
input for the `clear` return-value claim. -/
def cacheEx : CacheManager Nat := ⟨some [("ka", ⟨0, 1⟩), ("kb", ⟨0, 2⟩)]⟩

/-- C5 counterexample: clearing the whole two-entry cache removes two
entries but returns the boolean `True`; even under Python's numeric
coercion of booleans (`True == 1`) that is not the count 2, so `clear`
does not return the count of entries removed. -/
theorem cache_clear_returns_bool_not_count_cex :
    (cacheEx.clear none).1 = true ∧
    (cacheEx.clear none).1.toNat = 1 ∧
    clearRemovedCount cacheEx none = 2 ∧
    (1 : Nat) ≠ 2 :=
  ⟨rfl, rfl, rfl, by decide⟩

/-- C5 (amended): `clear` with a truthy pattern removes exactly the
entries whose key contains the pattern as a substring, `clear` without
a pattern wipes everything, and in both cases the call returns the
boolean `True` — a success flag, not the count of entries removed. -/
theorem cache_clear_substring_and_wipe
    (V : Type) (store : List (String × CacheEntry V)) (p : String)
    (hp : p ≠ "") :
    ((CacheManager.clear (⟨some store⟩ : CacheManager V) (some p)).1 = true ∧
     (CacheManager.clear (⟨some store⟩ : CacheManager V) (some p)).2.cache =
       some (store.filter (fun kv => !(strContains kv.1 p))) ∧
     ∀ kv ∈ store,
       (kv ∈ (store.filter (fun kv => !(strContains kv.1 p))) ↔
         strContains kv.1 p = false)) ∧
    ((CacheManager.clear (⟨some store⟩ : CacheManager V) none).1 = true ∧
     (CacheManager.clear (⟨some store⟩ : CacheManager V) none).2.cache = some []) := by
  have hpt : CacheManager.patternTruthy (some p) = true := by
    simp [CacheManager.patternTruthy, hp]
  refine ⟨⟨?_, ?_, ?_⟩, ⟨rfl, rfl⟩⟩
  · simp [CacheManager.clear, hpt]
  · simp [CacheManager.clear, hpt]
  · intro kv hkv
    simp [List.mem_filter, hkv]

/-- C5 witness: the amended clear behaviour evaluated on the concrete
two-entry cache with pattern `"a"`. -/
theorem cache_clear_substring_and_wipe_witness :
    ("a" : String) ≠ "" ∧
    ((CacheManager.clear (⟨some [("ka", ⟨0, 1⟩), ("kb", ⟨0, 2⟩)]⟩ : CacheManager Nat)
        (some "a")).1 = true ∧
     (CacheManager.clear (⟨some [("ka", ⟨0, 1⟩), ("kb", ⟨0, 2⟩)]⟩ : CacheManager Nat)
        (some "a")).2.cache =
       some ([("ka", ⟨0, 1⟩), ("kb", ⟨0, 2⟩)].filter
         (fun kv => !(strContains kv.1 "a"))) ∧
     ∀ kv ∈ ([("ka", ⟨0, 1⟩), ("kb", ⟨0, 2⟩)] : List (String × CacheEntry Nat)),
       (kv ∈ (([("ka", ⟨0, 1⟩), ("kb", ⟨0, 2⟩)] : List (String × CacheEntry Nat)).filter
           (fun kv => !(strContains kv.1 "a"))) ↔
         strContains kv.1 "a" = false)) ∧
    ((CacheManager.clear (⟨some [("ka", ⟨0, 1⟩), ("kb", ⟨0, 2⟩)]⟩ : CacheManager Nat)
        none).1 = true ∧
     (CacheManager.clear (⟨some [("ka", ⟨0, 1⟩), ("kb", ⟨0, 2⟩)]⟩ : CacheManager Nat)
        none).2.cache = some []) :=
  ⟨by decide,
   cache_clear_substring_and_wipe Nat [("ka", ⟨0, 1⟩), ("kb", ⟨0, 2⟩)] "a" (by decide)⟩

/-- C6: on an enabled cache, `set k v cat` at time `t` followed by
`get k cat` returns `v` immediately and keeps returning `v` while
`now - t ≤ ttl(cat)`; once `ttl(cat) < now - t` the `get` is a miss
computed against the category's TTL at read time, even though the
backing entry still physically exists in the store. -/
theorem cache_set_get_roundtrip_ttl
    (V : Type) (store : List (String × CacheEntry V)) (key : String) (v : V)
    (cat : String) (t now : ℚ)
    (hfresh : now - t ≤ expiryFor cat) :
    ((⟨some store⟩ : CacheManager V).set key v cat t).1 = true ∧
    ((⟨some store⟩ : CacheManager V).set key v cat t).2.get key cat t = some v ∧
    ((⟨some store⟩ : CacheManager V).set key v cat t).2.get key cat now = some v ∧
    (∀ later : ℚ, expiryFor cat < later - t →
      ((⟨some store⟩ : CacheManager V).set key v cat t).2.get key cat later = none) ∧
    (∃ e, ((⟨some store⟩ : CacheManager V).set key v cat t).2.cache =
        some (CacheManager.storeSet store key e) ∧
      alookup (CacheManager.storeSet store key e) key = some e ∧
      e.value = v ∧ e.timestamp = t) := by
  have hset : ((⟨some store⟩ : CacheManager V).set key v cat t).2 =
      ⟨some (CacheManager.storeSet store key ⟨t, v⟩)⟩ := rfl
  have hal := alookup_storeSet_self store key (⟨t, v⟩ : CacheEntry V)
  refine ⟨rfl, ?_, ?_, ?_, ⟨t, v⟩, rfl, hal, rfl, rfl⟩
  · rw [hset]
    simp only [CacheManager.get, hal]
    rw [if_neg]
    simp only [sub_self]
    exact not_lt.mpr (expiryFor_pos cat).le
  · rw [hset]
    simp only [CacheManager.get, hal]
    rw [if_neg]
    exact not_lt.mpr hfresh
  · intro later hlater
    rw [hset]
    simp only [CacheManager.get, hal]
    rw [if_pos hlater]

/-- C6 witness: the round-trip appraised on a concrete cache, key and
times (`t = 100`, read at `now = 200`, category `STOCK_PRICE`). -/
theorem cache_set_get_roundtrip_ttl_witness :
    ((200 : ℚ) - 100 ≤ expiryFor "STOCK_PRICE") ∧
    (((⟨some []⟩ : CacheManager Nat).set "k" 7 "STOCK_PRICE" 100).1 = true ∧
     ((⟨some []⟩ : CacheManager Nat).set "k" 7 "STOCK_PRICE" 100).2.get
       "k" "STOCK_PRICE" 100 = some 7 ∧
     ((⟨some []⟩ : CacheManager Nat).set "k" 7 "STOCK_PRICE" 100).2.get
       "k" "STOCK_PRICE" 200 = some 7 ∧
     (∀ later : ℚ, expiryFor "STOCK_PRICE" < later - 100 →
       ((⟨some []⟩ : CacheManager Nat).set "k" 7 "STOCK_PRICE" 100).2.get
         "k" "STOCK_PRICE" later = none) ∧
     (∃ e, ((⟨some []⟩ : CacheManager Nat).set "k" 7 "STOCK_PRICE" 100).2.cache =
         some (CacheManager.storeSet [] "k" e) ∧
       alookup (CacheManager.storeSet [] "k" e) "k" = some e ∧
       e.value = 7 ∧ e.timestamp = 100)) :=
  ⟨by norm_num [expiryFor, alookup, CACHE_EXPIRY],
   cache_set_get_roundtrip_ttl Nat [] "k" 7 "STOCK_PRICE" 100 200
     (by norm_num [expiryFor, alookup, CACHE_EXPIRY])⟩

lemma check_rate_limit_delay_of_no_reset (st : YahooRateState) (now : ℚ)
    (h : ¬ st.reset_time ≤ now) (h5 : 5 < st.request_count) :
    (check_rate_limit st now).1 = min 30 (2 ^ (st.request_count / 5)) := by
  simp [check_rate_limit, h, h5]

lemma check_rate_limit_state_of_no_reset (st : YahooRateState) (now : ℚ)
    (h : ¬ st.reset_time ≤ now) :
    (check_rate_limit st now).2.request_count = st.request_count + 1 ∧
    (check_rate_limit st now).2.reset_time = st.reset_time := by
  constructor <;> simp [check_rate_limit, h]

lemma check_rate_limit_delay_le_30 (st : YahooRateState) (now : ℚ) :
    (check_rate_limit st now).1 ≤ 30 := by
  unfold check_rate_limit
  dsimp only
  split <;> (try split) <;> omega

/-- C7: while the hour-long window has not rolled over, an acquire made
with `request_count > 5` sleeps exactly
`min(30, 2 ^ (request_count / 5))` seconds (integer division, as in the
source); across two consecutive acquires inside one window the backoff
delays are non-decreasing (the counter increments each acquire), and
every backoff delay is capped at 30 seconds. -/
theorem rate_limit_backoff_monotone_capped
    (st : YahooRateState) (now1 now2 : ℚ)
    (h5 : 5 < st.request_count)
    (h1 : now1 < st.reset_time)
    (h2 : now2 < (check_rate_limit st now1).2.reset_time) :
    (check_rate_limit st now1).1 = min 30 (2 ^ (st.request_count / 5)) ∧
    (check_rate_limit st now1).1 ≤ 30 ∧
    (check_rate_limit st now1).1 ≤ (check_rate_limit (check_rate_limit st now1).2 now2).1 ∧
    (check_rate_limit (check_rate_limit st now1).2 now2).1 ≤ 30 := by
  have hr1 : ¬ st.reset_time ≤ now1 := not_le.mpr h1
  obtain ⟨hc1, hrt1⟩ := check_rate_limit_state_of_no_reset st now1 hr1
  have hr2 : ¬ (check_rate_limit st now1).2.reset_time ≤ now2 := not_le.mpr h2
  have h5' : 5 < (check_rate_limit st now1).2.request_count := by
    rw [hc1]; exact Nat.lt_succ_of_lt h5
  have hd1 := check_rate_limit_delay_of_no_reset st now1 hr1 h5
  have hd2 := check_rate_limit_delay_of_no_reset (check_rate_limit st now1).2 now2 hr2 h5'
  refine ⟨hd1, check_rate_limit_delay_le_30 st now1, ?_, check_rate_limit_delay_le_30 _ now2⟩
  rw [hd1, hd2, hc1]
  exact min_le_min (le_refl 30)
    (Nat.pow_le_pow_right (by norm_num) (Nat.div_le_div_right (Nat.le_succ _)))

/-- C7 witness: a limiter at `request_count = 7` inside a window ending
at time 100, acquiring at times 10 and 20: both delays equal 2 seconds
(`min(30, 2 ** (7 / 5)) = min(30, 2 ** (8 / 5)) = 2`), non-decreasing
and capped. -/
theorem rate_limit_backoff_monotone_capped_witness :
    (5 < 7) ∧ ((10 : ℚ) < 100) ∧
    ((20 : ℚ) < (check_rate_limit ⟨7, 100, 0⟩ 10).2.reset_time) ∧
    ((check_rate_limit ⟨7, 100, 0⟩ 10).1 = min 30 (2 ^ (7 / 5)) ∧
     (check_rate_limit ⟨7, 100, 0⟩ 10).1 ≤ 30 ∧
     (check_rate_limit ⟨7, 100, 0⟩ 10).1 ≤
       (check_rate_limit (check_rate_limit ⟨7, 100, 0⟩ 10).2 20).1 ∧
     (check_rate_limit (check_rate_limit ⟨7, 100, 0⟩ 10).2 20).1 ≤ 30) :=
  ⟨by norm_num, by norm_num, by norm_num [check_rate_limit],
   rate_limit_backoff_monotone_capped ⟨7, 100, 0⟩ 10 20 (by norm_num) (by norm_num)
     (by norm_num [check_rate_limit])⟩

lemma zfill10_ne_empty (s : String) : zfill10 s ≠ "" := by
  intro h
  have hdata : List.replicate (10 - s.length) '0' ++ s.data = [] := by
    have := congrArg String.data h
    simpa [zfill10] using this
  rcases List.append_eq_nil.mp hdata with ⟨h1, h2⟩
  have hlen : s.length = 0 := by
    show s.data.length = 0
    rw [h2]
    rfl
  rw [hlen] at h1
  exact absurd (congrArg List.length h1) (by simp)

/-- C8: when the cache lookup of a source-client query hits, the method
returns the cached value immediately: the rate-limiter state is left
untouched (the whole API state is returned unchanged) and no upstream
request is attempted.  Shown for `YahooFinanceAPI.get_ticker_info` and
`SECEdgarAPI.get_cik_from_ticker`; the cached CIK guard `if cached_data:`
demands a non-empty string, and the final conjunct shows every CIK the
code stores is a zero-filled, hence non-empty, string. -/
theorem cache_hit_skips_rate_limiter :
    (∀ (st : YahooAPIState) (ticker : PyValue) (now : ℚ)
       (upstream : Except PyErr (Option UpstreamInfo)) (t : String) (v : RelevantInfo),
      DataValidator.validate_ticker ticker = Except.ok t →
      st.cache.get ("ticker_info_" ++ t) "STOCK_PRICE" now = some v →
      get_ticker_info st ticker now upstream = (some v, st, false)) ∧
    (∀ (st : EdgarAPIState) (ticker : PyValue) (now : ℚ)
       (upstream : Except PyErr (List CompanyDirEntry)) (t c : String),
      DataValidator.validate_ticker ticker = Except.ok t →
      st.cache.get ("cik_" ++ t) "SEC_FILING" now = some c →
      c ≠ "" →
      get_cik_from_ticker st ticker now upstream = (some c, st, false)) ∧
    (∀ (companies : List CompanyDirEntry) (t c : String),
      find_cik companies t = some c → c ≠ "") := by
  refine ⟨?_, ?_, ?_⟩
  · intro st ticker now upstream t v hval hcache
    simp only [get_ticker_info, hval, hcache]
  · intro st ticker now upstream t c hval hcache hc
    simp only [get_cik_from_ticker, hval, hcache, if_neg hc]
  · intro companies t c hfind
    unfold find_cik at hfind
    rcases h : companies.find? (fun company => upperStr (company.ticker.getD "") == t) with
      _ | company
    · rw [h] at hfind; exact absurd hfind (by simp)
    · rw [h] at hfind
      have : c = zfill10 (Nat.repr (company.cik_str.getD 0)) := by
        simpa using hfind.symm
      rw [this]
      exact zfill10_ne_empty _

/-- A concrete `relevant_info` record used by witnesses. -/
def infoEx : RelevantInfo := ⟨"AAPL", "", "", "", 0, 0, 0, 0, 0, 0, 0, 0⟩

/-- A Yahoo API state whose cache already holds the ticker-info entry
for `AAPL`, stored at time 0. -/
def ystEx : YahooAPIState :=
  ⟨⟨some [("ticker_info_AAPL", ⟨0, infoEx⟩)]⟩, ⟨0, 3600, 0⟩⟩

/-- An EDGAR API state whose cache already holds the CIK for `AAPL`. -/
def estEx : EdgarAPIState := ⟨⟨some [("cik_AAPL", ⟨0, "0000320193"⟩)]⟩, 0⟩

/-- C8 witness: cache hits for `AAPL` at time 10 on both clients return
the cached values with both API states unchanged and no upstream call. -/
theorem cache_hit_skips_rate_limiter_witness :
    (DataValidator.validate_ticker (PyValue.str "AAPL") = Except.ok "AAPL") ∧
    (ystEx.cache.get ("ticker_info_" ++ "AAPL") "STOCK_PRICE" 10 = some infoEx) ∧
    (get_ticker_info ystEx (PyValue.str "AAPL") 10 (Except.ok none) =
      (some infoEx, ystEx, false)) ∧
    (estEx.cache.get ("cik_" ++ "AAPL") "SEC_FILING" 10 = some "0000320193") ∧
    (get_cik_from_ticker estEx (PyValue.str "AAPL") 10 (Except.ok []) =
      (some "0000320193", estEx, false)) := by
  have hval : DataValidator.validate_ticker (PyValue.str "AAPL") = Except.ok "AAPL" := rfl
  have hy : ystEx.cache.get ("ticker_info_" ++ "AAPL") "STOCK_PRICE" 10 = some infoEx := by
    simp [ystEx, CacheManager.get, alookup, expiryFor, CACHE_EXPIRY]
    norm_num
  have he : estEx.cache.get ("cik_" ++ "AAPL") "SEC_FILING" 10 = some "0000320193" := by
    simp [estEx, CacheManager.get, alookup, expiryFor, CACHE_EXPIRY]
    norm_num
  exact ⟨hval, hy,
    cache_hit_skips_rate_limiter.1 ystEx (PyValue.str "AAPL") 10 (Except.ok none)
      "AAPL" infoEx hval hy,
    he,
    cache_hit_skips_rate_limiter.2.1 estEx (PyValue.str "AAPL") 10 (Except.ok [])
      "AAPL" "0000320193" hval he (by decide)⟩

/-- A fresh Yahoo API state with an empty enabled cache. -/
def ystInit : YahooAPIState := ⟨⟨some []⟩, ⟨0, 3600, 0⟩⟩

/-- A fresh EDGAR API state with an empty enabled cache. -/
def estInit : EdgarAPIState := ⟨⟨some []⟩, 0⟩

/-- C4 counterexample: for the structurally invalid empty-string ticker
the validator does raise `ValueError`, but `get_ticker_info` swallows
it inside its catch-all handler and returns `None` — the error is
converted into a null result, not surfaced to the immediate caller. -/
theorem invalid_input_not_surfaced_cex :
    DataValidator.validate_ticker (PyValue.str "") = Except.error PyErr.valueError ∧
    get_ticker_info ystInit (PyValue.str "") 0 (Except.ok none) = (none, ystInit, false) ∧
    get_cik_from_ticker estInit (PyValue.str "") 0 (Except.ok []) = (none, estInit, false) :=
  ⟨rfl, rfl, rfl⟩

/-- C4 (amended): on a structurally invalid ticker (empty string,
`None`, or a non-string) the validator raises `InvalidInput`
(`ValueError`), but each source-client method catches it internally and
returns `None` with the state untouched and no upstream request — bad
input degrades to a null result exactly like an upstream failure and is
never surfaced to the caller. -/
theorem invalid_input_swallowed_returns_none :
    (∀ (t : PyValue),
      (t = PyValue.pyNone ∨ (∃ n, t = PyValue.int n) ∨ t = PyValue.str "") →
      DataValidator.validate_ticker t = Except.error PyErr.valueError) ∧
    (∀ (st : YahooAPIState) (ticker : PyValue) (now : ℚ)
       (upstream : Except PyErr (Option UpstreamInfo)) (e : PyErr),
      DataValidator.validate_ticker ticker = Except.error e →
      get_ticker_info st ticker now upstream = (none, st, false)) ∧
    (∀ (st : EdgarAPIState) (ticker : PyValue) (now : ℚ)
       (upstream : Except PyErr (List CompanyDirEntry)) (e : PyErr),
      DataValidator.validate_ticker ticker = Except.error e →
      get_cik_from_ticker st ticker now upstream = (none, st, false)) := by
  refine ⟨?_, ?_, ?_⟩
  · rintro t (rfl | ⟨n, rfl⟩ | rfl) <;> rfl
  · intro st ticker now upstream e hval
    simp only [get_ticker_info, hval]
  · intro st ticker now upstream e hval
    simp only [get_cik_from_ticker, hval]

/-- C4 witness: the amended behaviour evaluated at the empty-string
ticker on fresh client states. -/
theorem invalid_input_swallowed_returns_none_witness :
    (PyValue.str "" = PyValue.pyNone ∨ (∃ n, PyValue.str "" = PyValue.int n) ∨
      PyValue.str "" = PyValue.str "") ∧
    DataValidator.validate_ticker (PyValue.str "") = Except.error PyErr.valueError ∧
    get_ticker_info ystInit (PyValue.str "") 0 (Except.ok none) = (none, ystInit, false) ∧
    get_cik_from_ticker estInit (PyValue.str "") 0 (Except.ok []) = (none, estInit, false) :=
  ⟨Or.inr (Or.inr rfl),
   invalid_input_swallowed_returns_none.1 (PyValue.str "") (Or.inr (Or.inr rfl)),
   invalid_input_swallowed_returns_none.2.1 ystInit (PyValue.str "") 0 (Except.ok none)
     PyErr.valueError rfl,
   invalid_input_swallowed_returns_none.2.2 estInit (PyValue.str "") 0 (Except.ok [])
     PyErr.valueError rfl⟩

/-- C3: if the market-data steps succeed (with any payloads) and the
first filings call then raises, `get_stock_data` still returns a
record: `basic_info` is populated from the successful market step and
the `sec_data` fields are at their defaults (`recent_10k = None`,
`recent_8k = []`, `key_financials = None`); and for a string ticker
`get_stock_data` never raises, whatever the oracles do. -/
theorem get_stock_data_best_effort_on_filings_error
    (H : Type) (now : ℚ) (o : AggOracles H) (info : RelevantInfo)
    (rh : Option H) (ro : Option OptionsData) (riv : Option IVData)
    (e : PyErr) (s : String)
    (h1 : o.stock_info = Except.ok (some info))
    (h2 : o.historical = Except.ok rh)
    (h3 : o.options = Except.ok ro)
    (h4 : o.save_options = Except.ok true)
    (h5 : o.iv = Except.ok riv)
    (h6 : o.recent_10k = Except.error e) :
    (∃ d, get_stock_data (PyValue.str s) now o = Except.ok d ∧
      d.basic_info = some info ∧
      d.sec_data.recent_10k = none ∧
      d.sec_data.recent_8k = [] ∧
      d.sec_data.key_financials = none) ∧
    (∀ (o' : AggOracles H) (s' : String),
      ∃ d', get_stock_data (PyValue.str s') now o' = Except.ok d') := by
  refine ⟨?_, fun o' s' => ⟨_, rfl⟩⟩
  cases rh <;> cases ro <;> cases riv <;>
    · simp only [get_stock_data, pyUpper, get_stock_data_body, default_comprehensive,
        h1, h2, h3, h4, h5, h6, Option.isSome]
      exact ⟨_, rfl, rfl, rfl, rfl, rfl⟩

/-- A historical payload and concrete oracle set in which the market
steps succeed and the first filings call raises. -/
def aggOraclesC3 : AggOracles Unit :=
  ⟨Except.ok (some infoEx), Except.ok none, Except.ok none, Except.ok true,
   Except.ok none, Except.error PyErr.upstreamError, Except.ok true,
   Except.ok [], Except.ok true, Except.ok none, Except.ok true⟩

/-- C3 witness: the partial-failure scenario evaluated on concrete
oracles (market data succeeds, the 10-K fetch raises). -/
theorem get_stock_data_best_effort_on_filings_error_witness :
    aggOraclesC3.stock_info = Except.ok (some infoEx) ∧
    aggOraclesC3.recent_10k = Except.error PyErr.upstreamError ∧
    ((∃ d, get_stock_data (PyValue.str "AAPL") 0 aggOraclesC3 = Except.ok d ∧
        d.basic_info = some infoEx ∧
        d.sec_data.recent_10k = none ∧
        d.sec_data.recent_8k = [] ∧
        d.sec_data.key_financials = none) ∧
     (∀ (o' : AggOracles Unit) (s' : String),
        ∃ d', get_stock_data (PyValue.str s') 0 o' = Except.ok d')) :=
  ⟨rfl, rfl,
   get_stock_data_best_effort_on_filings_error Unit 0 aggOraclesC3 infoEx none none none
     PyErr.upstreamError "AAPL" rfl rfl rfl rfl rfl rfl⟩

/-- C10: `get_stock_data` calls `ticker.upper()` before entering its
exception-guarded block, so a non-string argument raises
(`AttributeError`) instead of returning the default record; its
never-raises totality holds exactly under the precondition that the
ticker is a string. -/
theorem get_stock_data_requires_string_ticker :
    (∀ (H : Type) (v : PyValue) (now : ℚ) (o : AggOracles H),
      (∀ s, v ≠ PyValue.str s) →
      get_stock_data v now o = Except.error PyErr.attributeError) ∧
    (∀ (H : Type) (s : String) (now : ℚ) (o : AggOracles H),
      ∃ d, get_stock_data (PyValue.str s) now o = Except.ok d) := by
  refine ⟨?_, fun H s now o => ⟨_, rfl⟩⟩
  intro H v now o hv
  cases v with
  | str s => exact absurd rfl (hv s)
  | int n => rfl
  | pyNone => rfl

/-- C10 witness: the integer ticker `3` raises, while the string ticker
`"AAPL"` yields a record, on the concrete oracle set. -/
theorem get_stock_data_requires_string_ticker_witness :
    (∀ s, PyValue.int 3 ≠ PyValue.str s) ∧
    get_stock_data (PyValue.int 3) 0 aggOraclesC3 = Except.error PyErr.attributeError ∧
    (∃ d, get_stock_data (PyValue.str "AAPL") 0 aggOraclesC3 = Except.ok d) :=
  ⟨fun _ h => PyValue.noConfusion h,
   get_stock_data_requires_string_ticker.1 Unit (PyValue.int 3) 0 aggOraclesC3
     (fun _ h => PyValue.noConfusion h),
   get_stock_data_requires_string_ticker.2 Unit "AAPL" 0 aggOraclesC3⟩

lemma side_ivs_fold_pos (contracts : List (Option ℚ)) (acc : List ℚ)
    (hacc : ∀ x ∈ acc, 0 < x) :
    ∀ x ∈ contracts.foldl
      (fun acc c =>
        match c with
        | some iv => if 0 < iv then acc ++ [iv] else acc
        | none => acc) acc, 0 < x := by
  induction contracts generalizing acc with
  | nil => exact hacc
  | cons hd tl ih =>
    simp only [List.foldl_cons]
    cases hd with
    | none => exact ih acc hacc
    | some iv =>
      dsimp only
      by_cases h : 0 < iv
      · rw [if_pos h]
        refine ih (acc ++ [iv]) ?_
        intro y hy
        rcases List.mem_append.mp hy with hy | hy
        · exact hacc y hy
        · rw [List.mem_singleton.mp hy]; exact h
      · rw [if_neg h]
        exact ih acc hacc

lemma side_ivs_pos (side : Option (List (Option ℚ))) :
    ∀ x ∈ side_ivs side, 0 < x := by
  cases side with
  | none => intro x hx; exact absurd hx (List.not_mem_nil x)
  | some contracts =>
    exact side_ivs_fold_pos contracts [] (fun x hx => absurd hx (List.not_mem_nil x))

lemma avg_pos (l : List ℚ) (hne : l ≠ []) (hpos : ∀ x ∈ l, 0 < x) :
    0 < l.sum / l.length := by
  apply div_pos (List.sum_pos l hpos hne)
  exact_mod_cast List.length_pos.mpr hne

lemma avg_nonneg_if (l : List ℚ) (hpos : ∀ x ∈ l, 0 < x) :
    0 ≤ (if l ≠ [] then l.sum / l.length else 0) := by
  split
  next h => exact (avg_pos l h hpos).le
  next h => exact le_refl 0

lemma calc_exp_iv_avg_zero (chain : ExpChain)
    (hc : side_ivs chain.calls = []) (hp : side_ivs chain.puts = []) :
    (calc_exp_iv chain).average_iv = 0 := by
  unfold calc_exp_iv
  dsimp only
  rw [if_neg (by simp [hc, hp])]

lemma calc_exp_iv_avg_pos (chain : ExpChain)
    (h : side_ivs chain.calls ≠ [] ∨ side_ivs chain.puts ≠ []) :
    0 < (calc_exp_iv chain).average_iv := by
  unfold calc_exp_iv
  dsimp only
  rw [if_pos h]
  have hA : 0 ≤ (if side_ivs chain.calls ≠ [] then
      (side_ivs chain.calls).sum / (side_ivs chain.calls).length else 0) :=
    avg_nonneg_if _ (side_ivs_pos _)
  have hB : 0 ≤ (if side_ivs chain.puts ≠ [] then
      (side_ivs chain.puts).sum / (side_ivs chain.puts).length else 0) :=
    avg_nonneg_if _ (side_ivs_pos _)
  rcases h with hc | hp
  · have hA' : 0 < (if side_ivs chain.calls ≠ [] then
        (side_ivs chain.calls).sum / (side_ivs chain.calls).length else 0) := by
      rw [if_pos hc]; exact avg_pos _ hc (side_ivs_pos _)
    exact div_pos (by linarith) (by norm_num)
  · have hB' : 0 < (if side_ivs chain.puts ≠ [] then
        (side_ivs chain.puts).sum / (side_ivs chain.puts).length else 0) := by
      rw [if_pos hp]; exact avg_pos _ hp (side_ivs_pos _)
    exact div_pos (by linarith) (by norm_num)

lemma calc_exp_iv_pos_iff (chain : ExpChain) :
    0 < (calc_exp_iv chain).average_iv ↔
      (side_ivs chain.calls ≠ [] ∨ side_ivs chain.puts ≠ []) := by
  constructor
  · intro h
    by_contra hno
    push_neg at hno
    rw [calc_exp_iv_avg_zero chain hno.1 hno.2] at h
    exact lt_irrefl 0 h
  · exact calc_exp_iv_avg_pos chain

lemma calc_iv_foldl (od : OptionsData) (a : List (String × ExpIV)) (b : List ℚ) :
    od.foldl
      (fun (acc : List (String × ExpIV) × List ℚ) p =>
        let e := calc_exp_iv p.2
        (acc.1 ++ [(p.1, e)],
         if 0 < e.average_iv then acc.2 ++ [e.average_iv] else acc.2))
      (a, b) =
    (a ++ od.map (fun p => (p.1, calc_exp_iv p.2)),
     b ++ (od.map (fun p => (calc_exp_iv p.2).average_iv)).filter
       (fun q => decide (0 < q))) := by
  induction od generalizing a b with
  | nil => simp
  | cons hd tl ih =>
    simp only [List.foldl_cons, List.map_cons, List.filter_cons]
    try dsimp only
    by_cases h : 0 < (calc_exp_iv hd.2).average_iv
    · rw [if_pos h, ih, decide_eq_true h]
      simp [List.append_assoc]
    · rw [if_neg h, ih]
      have hd' : decide (0 < (calc_exp_iv hd.2).average_iv) = false := by
        simpa using h
      rw [hd']
      simp [List.append_assoc]

/-- The chain used as the counterexample input: one call with IV `0.2`
and an empty puts list. -/
def chainCallsOnly : ExpChain := ⟨some [some (1/5)], some []⟩

/-- C2 counterexample: with calls IVs `{0.2}` and no puts IVs, the code
averages the per-expiration IV as `(0.2 + 0)/2 = 0.1`, counting the
missing side as zero, whereas the claim's excluded-side semantics
yields `0.2`; the two disagree. -/
theorem iv_missing_side_counted_as_zero_cex :
    (calc_exp_iv chainCallsOnly).average_iv = 1/10 ∧
    claim_exp_average_iv chainCallsOnly = 1/5 ∧
    ((1 : ℚ)/10 ≠ 1/5) := by
  refine ⟨?_, ?_, by norm_num⟩
  · norm_num [calc_exp_iv, chainCallsOnly, side_ivs]
  · norm_num [claim_exp_average_iv, chainCallsOnly, side_ivs]

/-- C2 (amended): the per-expiration `average_iv` is
`(avg_calls + avg_puts)/2` whenever at least one side has positive IVs,
where a side with no positive IVs contributes the value 0 to that sum —
counted as zero (halving the surviving side), not excluded; a
per-expiration average is positive exactly when some side has positive
IVs, and the overall `average_iv` is the mean of exactly those
per-expiration averages that are positive (expirations contributing no
IVs are excluded entirely), 0 when none remain. -/
theorem calculate_iv_average_characterization
    (chain : ExpChain) (od : OptionsData)
    (hc : side_ivs chain.calls ≠ []) :
    ((calc_exp_iv chain).average_iv =
      ((side_ivs chain.calls).sum / (side_ivs chain.calls).length +
       (if side_ivs chain.puts ≠ [] then
         (side_ivs chain.puts).sum / (side_ivs chain.puts).length else 0)) / 2) ∧
    (0 < (calc_exp_iv chain).average_iv ↔
      (side_ivs chain.calls ≠ [] ∨ side_ivs chain.puts ≠ [])) ∧
    ((calculate_iv_data od).1 = od.map (fun p => (p.1, calc_exp_iv p.2))) ∧
    ((calculate_iv_data od).2 =
      (if (od.map (fun p => (calc_exp_iv p.2).average_iv)).filter
            (fun q => decide (0 < q)) ≠ [] then
        ((od.map (fun p => (calc_exp_iv p.2).average_iv)).filter
            (fun q => decide (0 < q))).sum /
          ((od.map (fun p => (calc_exp_iv p.2).average_iv)).filter
            (fun q => decide (0 < q))).length
      else 0)) := by
  refine ⟨?_, calc_exp_iv_pos_iff chain, ?_, ?_⟩
  · unfold calc_exp_iv
    try dsimp only
    rw [if_pos (Or.inl hc), if_pos hc]
  · unfold calculate_iv_data
    dsimp only
    rw [calc_iv_foldl od [] []]
    simp
  · unfold calculate_iv_data
    dsimp only
    rw [calc_iv_foldl od [] []]
    simp

/-- The chain of the claim's worked example: calls IVs `{0.2, 0.3}`,
puts IVs `{0.1}`. -/
def chainExample : ExpChain := ⟨some [some (1/5), some (3/10)], some [some (1/10)]⟩

/-- C2 witness: on the claim's worked example the characterization
applies and indeed yields `((0.25) + (0.1))/2 = 0.175`, and on the
concrete two-expiration chain list the overall average keeps only the
positive per-expiration averages. -/
theorem calculate_iv_average_characterization_witness :
    side_ivs chainExample.calls ≠ [] ∧
    ((calc_exp_iv chainExample).average_iv =
      ((side_ivs chainExample.calls).sum / (side_ivs chainExample.calls).length +
       (if side_ivs chainExample.puts ≠ [] then
         (side_ivs chainExample.puts).sum / (side_ivs chainExample.puts).length else 0)) / 2) ∧
    (calc_exp_iv chainExample).average_iv = 7/40 ∧
    (calculate_iv_data [("d1", chainExample), ("d2", ⟨none, none⟩)]).2 = 7/40 := by
  have h1 : side_ivs chainExample.calls = [1/5, 3/10] := by
    norm_num [chainExample, side_ivs]
  have h2 : side_ivs chainExample.puts = [1/10] := by
    norm_num [chainExample, side_ivs]
  have hc : side_ivs chainExample.calls ≠ [] := by
    rw [h1]; exact List.cons_ne_nil _ _
  have hmain := calculate_iv_average_characterization chainExample
    [("d1", chainExample), ("d2", ⟨none, none⟩)] hc
  have hval : (calc_exp_iv chainExample).average_iv = 7/40 := by
    rw [hmain.1, h1, h2]
    norm_num
  refine ⟨hc, hmain.1, hval, ?_⟩
  rw [hmain.2.2.2]
  have hz : (calc_exp_iv (⟨none, none⟩ : ExpChain)).average_iv = 0 :=
    calc_exp_iv_avg_zero _ (by norm_num [side_ivs]) (by norm_num [side_ivs])
  simp only [List.map_cons, List.map_nil, hval, hz, List.filter_cons, List.filter_nil]
  norm_num

lemma charListLe_cons (a b : Char) (as bs : List Char) :
    charListLe (a :: as) (b :: bs) =
      if a.toNat < b.toNat then true
      else if b.toNat < a.toNat then false
      else charListLe as bs := rfl

lemma charListLe_trans : ∀ {x y z : List Char},
    charListLe x y = true → charListLe y z = true → charListLe x z = true := by
  intro x
  induction x with
  | nil => intro y z _ _; rfl
  | cons a as ih =>
    intro y z hxy hyz
    cases y with
    | nil => exact absurd hxy (by simp [charListLe])
    | cons b bs =>
      cases z with
      | nil => exact absurd hyz (by simp [charListLe])
      | cons c cs =>
        rw [charListLe_cons] at hxy hyz ⊢
        split_ifs at hxy hyz ⊢ <;>
          first
            | rfl
            | omega
            | exact ih hxy hyz

lemma charListLe_total : ∀ (x y : List Char),
    (charListLe x y || charListLe y x) = true := by
  intro x
  induction x with
  | nil => intro y; simp [charListLe]
  | cons a as ih =>
    intro y
    cases y with
    | nil => simp [charListLe]
    | cons b bs =>
      rw [charListLe_cons, charListLe_cons]
      rcases Nat.lt_trichotomy a.toNat b.toNat with h | h | h
      · rw [if_pos h]; simp
      · rw [if_neg (by omega), if_neg (by omega), if_neg (by omega), if_neg (by omega)]
        exact ih bs
      · rw [if_neg (by omega), if_pos h, if_pos h]
        simp

lemma strLe_trans {x y z : String} :
    strLe x y = true → strLe y z = true → strLe x z = true :=
  charListLe_trans

lemma strLe_total (x y : String) : (strLe x y || strLe y x) = true :=
  charListLe_total x.data y.data

lemma maybe_sort_perm (l : List SeriesPoint) : (maybe_sort l).Perm l := by
  unfold maybe_sort
  split
  · exact List.mergeSort_perm l _
  · exact List.Perm.refl l

lemma maybe_sort_sorted (l : List SeriesPoint) :
    List.Pairwise (fun a b => strLe b.filing_date a.filing_date = true) (maybe_sort l) := by
  unfold maybe_sort
  split
  · exact @List.sorted_mergeSort SeriesPoint
      (fun a b => strLe b.filing_date a.filing_date)
      (fun a b c h1 h2 => strLe_trans h2 h1)
      (fun a b => strLe_total b.filing_date a.filing_date) l
  · next h =>
      have : l = [] := by simpa using h
      rw [this]
      exact List.Pairwise.nil

lemma flatten_filter_map_comm {α β : Type} (p : α → Bool) (f : α → β)
    (us : List (String × List α)) :
    (us.map (fun u => (u.2.filter p).map f)).flatten =
    ((us.map Prod.snd).flatten.filter p).map f := by
  induction us with
  | nil => rfl
  | cons hd tl ih =>
    simp [List.filter_append, ih]

lemma collect_form_10k_eq (td : TagData) :
    collect_form_10k td =
      (((td.units.map Prod.snd).flatten).filter
        (fun e => e.form == some "10-K")).map entryToPoint := by
  unfold collect_form_10k
  exact flatten_filter_map_comm _ _ td.units

lemma revenue_pre_sort_eq (us_gaap : List (String × TagData)) :
    (revenue_keys.map (fun rev_key =>
      match alookup us_gaap rev_key with
      | none => []
      | some td => collect_form_10k td)).flatten = allRevenuePoints us_gaap := by
  have hkey : ∀ k, (match alookup us_gaap k with
      | none => ([] : List SeriesPoint)
      | some td => collect_form_10k td) =
      ((tagEntries us_gaap k).filter (fun e => e.form == some "10-K")).map entryToPoint := by
    intro k
    unfold tagEntries
    cases alookup us_gaap k with
    | none => rfl
    | some td => exact collect_form_10k_eq td
  unfold allRevenuePoints
  simp only [revenue_keys, List.map_cons, List.map_nil, List.flatten_cons, List.flatten_nil,
    List.filter_append, List.map_append, List.append_nil, hkey]

/-- C1 (amended): for a company-facts payload carrying a `us-gaap`
taxonomy, the revenue series of `extract_key_financials` is a merge of
the 10-K entries of every present synonymous revenue tag (`Revenue`,
`Revenues`, `SalesRevenueNet` — the loop has no break, so all matching
tags contribute, not only the first), and the returned series is sorted
by filing date descending. -/
theorem extract_key_financials_revenue_merge_sorted
    (ticker : String) (f : CompanyFacts)
    (tx : List (String × List (String × TagData)))
    (g : List (String × TagData))
    (hf : f.facts = some tx)
    (hg : alookup tx "us-gaap" = some g) :
    ∃ kf, extract_key_financials ticker (some f) = some kf ∧
      kf.ticker = ticker ∧
      kf.revenue.Perm (allRevenuePoints g) ∧
      List.Pairwise (fun a b => strLe b.filing_date a.filing_date = true) kf.revenue := by
  simp only [extract_key_financials, hf, hg]
  refine ⟨_, rfl, rfl, ?_, ?_⟩
  · exact (revenue_pre_sort_eq g) ▸ maybe_sort_perm _
  · exact maybe_sort_sorted _

/-- A 10-K entry under the `Revenue` tag. -/
def entryA : FactEntry := ⟨some 10, some "2023-09-30", some "2023-11-01", some "10-K"⟩

/-- A 10-K entry under the `Revenues` tag. -/
def entryB : FactEntry := ⟨some 20, some "2022-09-30", some "2022-11-01", some "10-K"⟩

/-- A `us-gaap` taxonomy in which two synonymous revenue tags are both
present, each holding one 10-K entry. -/
def gaapEx : List (String × TagData) :=
  [("Revenue", ⟨[("USD", [entryA])]⟩), ("Revenues", ⟨[("USD", [entryB])]⟩)]

/-- A company-facts payload wrapping `gaapEx`. -/
def factsEx : CompanyFacts := ⟨some [("us-gaap", gaapEx)]⟩

/-- C1 counterexample: with both `Revenue` and `Revenues` present, the
extracted revenue series holds the entries of both tags (two points),
while the claim's first-match-wins construction keeps only the first
tag's single entry — the code merges, it does not stop at the first
matching tag. -/
theorem revenue_not_first_match_cex :
    (extract_key_financials "T" (some factsEx)).map (fun kf => kf.revenue.length) =
      some 2 ∧
    (claim_revenue_first_match gaapEx).length = 1 ∧
    (2 : Nat) ≠ 1 := by
  refine ⟨?_, rfl, by decide⟩
  have hextract : extract_key_financials "T" (some factsEx) =
      some { ticker := "T",
             revenue := maybe_sort [entryToPoint entryA, entryToPoint entryB],
             net_income := maybe_sort [],
             eps := maybe_sort [] } := rfl
  rw [hextract]
  simp only [Option.map_some']
  have hlen : (maybe_sort [entryToPoint entryA, entryToPoint entryB]).length = 2 :=
    (maybe_sort_perm _).length_eq
  rw [hlen]

/-- C1 witness: the amended merge-and-sort behaviour applied to the
concrete two-tag payload. -/
theorem extract_key_financials_revenue_merge_sorted_witness :
    factsEx.facts = some [("us-gaap", gaapEx)] ∧
    alookup [("us-gaap", gaapEx)] "us-gaap" = some gaapEx ∧
    (∃ kf, extract_key_financials "T" (some factsEx) = some kf ∧
      kf.ticker = "T" ∧
      kf.revenue.Perm (allRevenuePoints gaapEx) ∧
      List.Pairwise (fun a b => strLe b.filing_date a.filing_date = true) kf.revenue) :=
  ⟨rfl, rfl,
   extract_key_financials_revenue_merge_sorted "T" factsEx [("us-gaap", gaapEx)] gaapEx
     rfl rfl⟩
